import Mathlib

/-!
Verification model of the mautrix-imessage bridge sources: the `ipc`
package (`Processor.Loop`, `Request`, `RequestWait`, `callHandler`,
`respond`), the `mac-nosip` connector (`Stop`, `pingLoop`) and the
appservice websocket reconnect backoff in `IMBridge.startWebsocket`.

Go maps are embedded as association lists whose insert removes any
previous binding of the key, so keys stay unique exactly as in a Go map.
Go `time.Duration` values are embedded as `Nat` nanoseconds.  The Go
`int` ids of IPC messages are embedded as `Int`, and the `int32`
request-id counter wraps through `wrap32`.
-/

namespace IMBridge

/-- Inbound IPC envelope (`ipc.Message`): a command, a correlation id and
the raw JSON payload (kept abstract as a string). -/
structure Message where
  command : String
  id : Int
  data : String
deriving DecidableEq, Repr

/-- A Go `interface{}` value used as a handler result, a panic value or a
response payload: `nil`, a value implementing the `error` interface with
the given `Error()` string, or any other (non-error) value. -/
inductive RespValue where
  | nil : RespValue
  | err (msg : String) : RespValue
  | val (s : String) : RespValue
deriving DecidableEq, Repr

/-- Outbound IPC envelope (`ipc.OutgoingMessage`). -/
structure OutgoingMessage where
  command : String
  id : Int
  data : RespValue
deriving DecidableEq, Repr

/-- Lookup in the waiter table, embedding Go map indexing
(`ipc.waiters[msg.ID]`). -/
def mapLookup : List (Int × Int) → Int → Option Int
  | [], _ => none
  | (k, v) :: rest, key => if k = key then some v else mapLookup rest key

/-- Deletion from the waiter table, embedding Go `delete(ipc.waiters, id)`:
every binding of the key disappears (on unique-key lists, the one binding). -/
def mapErase (m : List (Int × Int)) (key : Int) : List (Int × Int) :=
  m.filter (fun p => p.1 != key)

/-- Insertion into the waiter table, embedding Go
`ipc.waiters[reqID] = respChan`: the new binding replaces any old one. -/
def mapInsert (m : List (Int × Int)) (key v : Int) : List (Int × Int) :=
  (key, v) :: mapErase m key

/-- State of `ipc.Processor`: the set of commands with registered
handlers, the correlation table `waiters` mapping a pending request id to
its one-slot reply channel (the channel is identified by the request id
that created it), and the `reqID` counter. -/
structure Processor where
  handlers : List String
  waiters : List (Int × Int)
  reqID : Int
deriving DecidableEq, Repr

/-- Observable effects of the IPC code: a reply delivered to a pending
waiter channel, a reply logged and dropped, an outgoing envelope written
to stdout, a handler dispatched on its own goroutine, and a recovered
handler panic being logged. -/
inductive Effect where
  | deliver (chan : Int) (msg : Message) : Effect
  | dropLogged (id : Int) : Effect
  | sendReply (out : OutgoingMessage) : Effect
  | dispatch (cmd : String) (id : Int) : Effect
  | panicLogged (cmd : String) : Effect
deriving DecidableEq, Repr

/-- `Processor.respond`: skips the write when the id is 0 and the
response is nil; otherwise an error value becomes an `error` envelope
carrying its `Error()` string, and anything else becomes a `response`
envelope carrying the value. -/
def respond (id : Int) (response : RespValue) : List Effect :=
  if id = 0 ∧ response = RespValue.nil then []
  else
    match response with
    | RespValue.err s => [Effect.sendReply ⟨"error", id, RespValue.val s⟩]
    | v => [Effect.sendReply ⟨"response", id, v⟩]

/-- Whether an inbound command is a reply (`"response"` or `"error"`),
as tested at the top of `Processor.Loop`. -/
def isReply (cmd : String) : Bool :=
  cmd == "response" || cmd == "error"

/-- One iteration of the body of `Processor.Loop` on a decoded message:
replies are correlated against `waiters` (deliver and delete on a hit,
log and drop on a miss); other commands are dispatched to a registered
handler or answered with the `unknown command` error via `respond`. -/
def loopStep (ipc : Processor) (msg : Message) : Processor × List Effect :=
  if isReply msg.command then
    match mapLookup ipc.waiters msg.id with
    | none => (ipc, [Effect.dropLogged msg.id])
    | some w => ({ ipc with waiters := mapErase ipc.waiters msg.id }, [Effect.deliver w msg])
  else if ipc.handlers.contains msg.command then
    (ipc, [Effect.dispatch msg.command msg.id])
  else
    (ipc, respond msg.id (RespValue.err ("unknown command")))

/-- One item read from the subprocess stream: a decoded message, end of
input, or a decode error. -/
inductive StreamItem where
  | msg (m : Message) : StreamItem
  | eof : StreamItem
  | readError : StreamItem
deriving DecidableEq, Repr

/-- `Processor.Loop` over a finite prefix of the input stream: processes
messages in order and breaks on end of input or a decode error. -/
def runLoop : Processor → List StreamItem → Processor × List Effect
  | ipc, [] => (ipc, [])
  | ipc, StreamItem.eof :: _ => (ipc, [])
  | ipc, StreamItem.readError :: _ => (ipc, [])
  | ipc, StreamItem.msg m :: rest =>
    ((runLoop (loopStep ipc m).1 rest).1, (loopStep ipc m).2 ++ (runLoop (loopStep ipc m).1 rest).2)

/-- Outcome of running a handler: a normal return value, or a panic with
the recovered value. -/
inductive HandlerResult where
  | ok (v : RespValue) : HandlerResult
  | panicked (v : RespValue) : HandlerResult
deriving DecidableEq, Repr

/-- `Processor.callHandler`: a normal handler result is passed to
`respond` with the inbound id; the deferred recovery only acts behind
the `err != nil` guard, so a non-nil recovered panic value is logged and
passed to `respond`, while a nil-valued panic (`recover` returns the Go
nil under the pre-1.21 semantics this code targets) is swallowed with
neither a log nor a reply. -/
def callHandler (msg : Message) (result : HandlerResult) : List Effect :=
  match result with
  | HandlerResult.ok v => respond msg.id v
  | HandlerResult.panicked RespValue.nil => []
  | HandlerResult.panicked v => Effect.panicLogged msg.command :: respond msg.id v

/-- Signed 32-bit wraparound of the `atomic.AddInt32` request counter. -/
def wrap32 (n : Int) : Int :=
  (n + 2 ^ 31) % 2 ^ 32 - 2 ^ 31

/-- Result of `Processor.Request`: the state after the call, the created
reply channel (identified by the request id), and whether the write of
the outgoing envelope failed. -/
structure RequestResult where
  state : Processor
  chan : Int
  failed : Bool
deriving DecidableEq, Repr

/-- `Processor.Request`: allocates the next request id, registers the
one-slot reply channel in `waiters`, writes the envelope (`sendOk` says
whether the encode succeeded), and on failure deletes the entry again and
returns the error to the caller. -/
def Request (ipc : Processor) (sendOk : Bool) : RequestResult :=
  let rid := wrap32 (ipc.reqID + 1)
  let st1 : Processor := { ipc with reqID := rid, waiters := mapInsert ipc.waiters rid rid }
  if sendOk then ⟨st1, rid, false⟩
  else ⟨{ st1 with waiters := mapErase st1.waiters rid }, rid, true⟩

/-- Which of the two select arms of `Processor.RequestWait` fires: a
reply arrives on the channel, or the context finishes first. -/
inductive WaitOutcome where
  | reply (m : Message) : WaitOutcome
  | ctxDone : WaitOutcome
deriving DecidableEq, Repr

/-- Result value of `Processor.RequestWait` as seen by the caller. -/
inductive RWResult where
  | requestFailed : RWResult
  | errResponse (data : String) : RWResult
  | success : RWResult
  | ctxError : RWResult
deriving DecidableEq, Repr

/-- `Processor.RequestWait`: performs `Request`, then waits on the reply
channel against the context; no branch after a successful send touches
the correlation table. -/
def RequestWait (ipc : Processor) (sendOk : Bool) (outcome : WaitOutcome) :
    Processor × RWResult :=
  if (Request ipc sendOk).failed then ((Request ipc sendOk).state, RWResult.requestFailed)
  else
    match outcome with
    | WaitOutcome.ctxDone => ((Request ipc sendOk).state, RWResult.ctxError)
    | WaitOutcome.reply m =>
      if m.command == "error" then ((Request ipc sendOk).state, RWResult.errResponse m.data)
      else ((Request ipc sendOk).state, RWResult.success)

/-- The `proc` field of `MacNoSIPConnector` as `Stop` inspects it:
`none` when the child was never started; `some none` when it was started
but `Wait` has not completed, so `exec.Cmd.ProcessState` is still the Go
`nil` (this is the state of a running child, since nothing in the
connector calls `Wait` before `Stop`); `some (some exited)` after `Wait`,
where `exited` is `ProcessState.Exited()`. -/
def ProcHandle : Type := Option (Option Bool)

/-- Steps taken by `MacNoSIPConnector.Stop` on its non-early path, in
source order. -/
inductive StopEffect where
  | logNotRunning : StopEffect
  | notifyStopPinger : StopEffect
  | sigterm : StopEffect
  | armForcedKillTimer (seconds : Nat) : StopEffect
  | waitForExit : StopEffect
deriving DecidableEq, Repr

/-- The early-return guard of `MacNoSIPConnector.Stop`:
`mac.proc == nil || mac.proc.ProcessState == nil || mac.proc.ProcessState.Exited()`. -/
def stopReturnsEarly : Option (Option Bool) → Bool
  | none => true
  | some none => true
  | some (some exited) => exited

/-- `MacNoSIPConnector.Stop`: behind the guard it logs and returns;
otherwise it notifies the pinger, sends SIGTERM, arms the 3-second forced
kill timer and waits for the child to exit. -/
def MacStop (proc : Option (Option Bool)) : List StopEffect :=
  if stopReturnsEarly proc then [StopEffect.logNotRunning]
  else [StopEffect.notifyStopPinger, StopEffect.sigterm,
        StopEffect.armForcedKillTimer 3, StopEffect.waitForExit]

/-- The channel whose case of the first `select` in
`MacNoSIPConnector.pingLoop` fires. -/
inductive PingEvent where
  | stopSignal : PingEvent
  | timeoutFired : PingEvent
  | respArrived : PingEvent
deriving DecidableEq, Repr

/-- The first `select` of `pingLoop`, with the arrival times of the stop
signal and of the reply given as offsets from the start of the iteration
(`none` meaning the event never happens): the earliest ready case fires,
and the timeout channel fires at `interval`.  The returned `Nat` is the
time at which the chosen case fires. -/
def pingSelect (interval : Nat) (stopT respT : Option Nat) : PingEvent × Nat :=
  match stopT, respT with
  | none, none => (PingEvent.timeoutFired, interval)
  | some s, none =>
    if s ≤ interval then (PingEvent.stopSignal, s) else (PingEvent.timeoutFired, interval)
  | none, some r =>
    if r ≤ interval then (PingEvent.respArrived, r) else (PingEvent.timeoutFired, interval)
  | some s, some r =>
    if s ≤ interval ∧ s ≤ r then (PingEvent.stopSignal, s)
    else if r ≤ interval then (PingEvent.respArrived, r)
    else (PingEvent.timeoutFired, interval)

/-- Outcome of one iteration of `pingLoop`: the host process exits with
the given code (`os.Exit`), the loop returns cleanly, or it proceeds to
the next iteration. -/
inductive PingOutcome where
  | exitCode (c : Nat) : PingOutcome
  | cleanReturn : PingOutcome
  | nextIteration : PingOutcome
deriving DecidableEq, Repr

/-- One iteration of `MacNoSIPConnector.pingLoop`: a failed ping send
exits with 254; then the first `select` either returns on the stop
signal, exits with 255 on the timeout, or inspects the reply, exiting
with 253 when the reply has command `error`; an ok reply waits out the
rest of the interval in the second `select`, where a stop signal
(`stopDuringRest`) also returns cleanly. -/
def pingIteration (sendOk : Bool) (interval : Nat) (stopT respT : Option Nat)
    (resp : Message) (stopDuringRest : Bool) : PingOutcome :=
  if sendOk = false then PingOutcome.exitCode 254
  else
    match (pingSelect interval stopT respT).1 with
    | PingEvent.stopSignal => PingOutcome.cleanReturn
    | PingEvent.timeoutFired => PingOutcome.exitCode 255
    | PingEvent.respArrived =>
      if resp.command == "error" then PingOutcome.exitCode 253
      else if stopDuringRest then PingOutcome.cleanReturn
      else PingOutcome.nextIteration

/-- One second in nanoseconds, the unit of Go `time.Duration`. -/
def nsPerSecond : Nat := 1000000000

/-- `defaultReconnectBackoff = 2 * time.Second`. -/
def defaultReconnectBackoff : Nat := 2 * nsPerSecond

/-- `maxReconnectBackoff = 2 * time.Minute`. -/
def maxReconnectBackoff : Nat := 120 * nsPerSecond

/-- `reconnectBackoffReset = 5 * time.Minute`. -/
def reconnectBackoffReset : Nat := 300 * nsPerSecond

/-- State of the reconnect loop in `IMBridge.startWebsocket`: the stored
`reconnectBackoff`, the `lastDisconnect` timestamp, and the current clock
(all in nanoseconds). -/
structure WSState where
  reconnectBackoff : Nat
  lastDisconnect : Nat
  clock : Nat
deriving DecidableEq, Repr

/-- The backoff update at a disconnect in `startWebsocket`: reset to the
default when more than the reset window elapsed since `lastDisconnect`,
otherwise double and cap at the maximum. -/
def wsUpdateBackoff (lastDisconnect now backoff : Nat) : Nat :=
  if lastDisconnect + reconnectBackoffReset < now then defaultReconnectBackoff
  else min (backoff * 2) maxReconnectBackoff

/-- One iteration of the reconnect loop: `StartWebsocket` occupies
`sessionNs` nanoseconds (connect plus connected time) and returns at the
disconnect instant `now`; the backoff is updated, `lastDisconnect` is set
to `now`, and the loop sleeps the updated backoff, which is returned as
the wait this iteration performs. -/
def wsStep (st : WSState) (sessionNs : Nat) : WSState × Nat :=
  let now := st.clock + sessionNs
  let b := wsUpdateBackoff st.lastDisconnect now st.reconnectBackoff
  (⟨b, now, now + b⟩, b)

/-- Entry state of `startWebsocket` at time `t0`: the stored backoff is
the default and `lastDisconnect` is initialized to the current time. -/
def wsInit (t0 : Nat) : WSState := ⟨defaultReconnectBackoff, t0, t0⟩

/-- The successive backoff waits performed by the reconnect loop for a
run whose sessions last the given durations. -/
def wsWaits : WSState → List Nat → List Nat
  | _, [] => []
  | st, g :: gs => (wsStep st g).2 :: wsWaits (wsStep st g).1 gs

theorem mapLookup_mapErase_self (m : List (Int × Int)) (k : Int) :
    mapLookup (mapErase m k) k = none := by
  induction m with
  | nil => rfl
  | cons p rest ih =>
    by_cases h : p.1 = k
    · simpa [mapErase, List.filter_cons, h] using ih
    · simpa [mapErase, List.filter_cons, h, mapLookup] using ih

theorem mapLookup_mapErase_ne (m : List (Int × Int)) (k key : Int) (h : key ≠ k) :
    mapLookup (mapErase m k) key = mapLookup m key := by
  induction m with
  | nil => rfl
  | cons p rest ih =>
    have hkk : ¬ k = key := fun hx => h hx.symm
    by_cases hp : p.1 = k
    · simpa [mapErase, List.filter_cons, hp, mapLookup, hkk] using ih
    · by_cases hpkey : p.1 = key
      · simp [mapErase, List.filter_cons, hp, mapLookup, hpkey, h]
      · simpa [mapErase, List.filter_cons, hp, mapLookup, hpkey] using ih

theorem mapErase_eq_self (m : List (Int × Int)) (k : Int)
    (h : mapLookup m k = none) : mapErase m k = m := by
  induction m with
  | nil => rfl
  | cons p rest ih =>
    by_cases hp : p.1 = k
    · simp [mapLookup, hp] at h
    · simp only [mapLookup, if_neg hp] at h
      have hrest := ih h
      simp only [mapErase, List.filter_cons] at hrest ⊢
      simp [hp, hrest]

theorem mapLookup_mapInsert_self (m : List (Int × Int)) (k v : Int) :
    mapLookup (mapInsert m k v) k = some v := by
  simp [mapInsert, mapLookup]

theorem mapErase_mapErase (m : List (Int × Int)) (k : Int) :
    mapErase (mapErase m k) k = mapErase m k := by
  simp [mapErase, List.filter_filter]

theorem mapErase_mapInsert (m : List (Int × Int)) (k v : Int) :
    mapErase (mapInsert m k v) k = mapErase m k := by
  simp [mapInsert, mapErase, List.filter_cons, List.filter_filter]

/-- Claim C1: for every pending correlation id, at most one reply is
ever delivered to its waiter.  The first inbound `response` or `error`
envelope carrying a pending id removes the waiter entry and delivers the
message to its channel, leaving every other entry and the handler table
unchanged; a subsequent reply with the same id, and any reply whose id
has no pending waiter, is logged and dropped with the whole processor
state unchanged. -/
theorem loop_reply_correlation_safe (ipc : Processor) (msg : Message) (w : Int)
    (hreply : isReply msg.command = true)
    (hfound : mapLookup ipc.waiters msg.id = some w) :
    (loopStep ipc msg).2 = [Effect.deliver w msg] ∧
    mapLookup (loopStep ipc msg).1.waiters msg.id = none ∧
    (∀ k, k ≠ msg.id → mapLookup (loopStep ipc msg).1.waiters k = mapLookup ipc.waiters k) ∧
    (loopStep ipc msg).1.handlers = ipc.handlers ∧
    (∀ msg2, isReply msg2.command = true → msg2.id = msg.id →
      loopStep (loopStep ipc msg).1 msg2 = ((loopStep ipc msg).1, [Effect.dropLogged msg2.id])) ∧
    (∀ m2, isReply m2.command = true → mapLookup ipc.waiters m2.id = none →
      loopStep ipc m2 = (ipc, [Effect.dropLogged m2.id])) := by
  refine ⟨?_, ?_, ?_, ?_, ?_, ?_⟩
  · simp [loopStep, hreply, hfound]
  · simp [loopStep, hreply, hfound, mapLookup_mapErase_self]
  · intro k hk
    simp [loopStep, hreply, hfound, mapLookup_mapErase_ne _ _ _ hk]
  · simp [loopStep, hreply, hfound]
  · intro msg2 hr2 hid2
    simp [loopStep, hreply, hfound, hr2, hid2, mapLookup_mapErase_self]
  · intro m2 hr2 hnone
    simp [loopStep, hr2, hnone]

/-- Witness for C1 at a concrete table with two pending waiters. -/
theorem loop_reply_correlation_safe_witness :
    (loopStep ⟨[], [(1, 7), (2, 9)], 2⟩ ⟨"response", 1, "d"⟩).2 =
      [Effect.deliver 7 ⟨"response", 1, "d"⟩] ∧
    mapLookup (loopStep ⟨[], [(1, 7), (2, 9)], 2⟩ ⟨"response", 1, "d"⟩).1.waiters 1 = none ∧
    mapLookup (loopStep ⟨[], [(1, 7), (2, 9)], 2⟩ ⟨"response", 1, "d"⟩).1.waiters 2 = some 9 ∧
    loopStep (loopStep ⟨[], [(1, 7), (2, 9)], 2⟩ ⟨"response", 1, "d"⟩).1 ⟨"error", 1, "e"⟩ =
      ((loopStep ⟨[], [(1, 7), (2, 9)], 2⟩ ⟨"response", 1, "d"⟩).1, [Effect.dropLogged 1]) := by
  have h := loop_reply_correlation_safe ⟨[], [(1, 7), (2, 9)], 2⟩ ⟨"response", 1, "d"⟩ 7
    (by decide) (by decide)
  refine ⟨h.1, h.2.1, ?_, ?_⟩
  · have h2 := h.2.2.1 2 (by decide)
    rw [h2]
    rfl
  · exact h.2.2.2.2.1 ⟨"error", 1, "e"⟩ (by decide) rfl

/-- Claim C3 counterexample: an inbound envelope with an unregistered
command and id 0 does get an `unknown command` error reply — the
suppression in `respond` requires the response to be nil as well, and the
unknown-command error is never nil — refuting the claim that no reply is
sent when the id is 0. -/
theorem loop_unknown_command_id_zero_still_replies :
    (loopStep ⟨[], [], 0⟩ ⟨"bogus", 0, ""⟩).2 =
      [Effect.sendReply ⟨"error", 0, RespValue.val ("unknown command")⟩] ∧
    (loopStep ⟨[], [], 0⟩ ⟨"bogus", 0, ""⟩).2 ≠ [] := by
  constructor
  · rfl
  · intro h
    simp [loopStep, isReply, respond] at h

/-- Claim C3 (amended): for every inbound envelope whose command is
neither `response` nor `error` and has no registered handler, the read
loop synchronously sends an `unknown command` error reply addressed to
the inbound id — regardless of whether the id is 0, since the zero-id
suppression in `respond` applies only to nil responses — and the loop
continues with the processor state unchanged. -/
theorem loop_unknown_command_replies (ipc : Processor) (msg : Message)
    (hnr : isReply msg.command = false)
    (hnh : ipc.handlers.contains msg.command = false) :
    loopStep ipc msg =
      (ipc, [Effect.sendReply ⟨"error", msg.id, RespValue.val ("unknown command")⟩]) ∧
    (∀ rest, runLoop ipc (StreamItem.msg msg :: rest) =
      ((runLoop ipc rest).1,
        Effect.sendReply ⟨"error", msg.id, RespValue.val ("unknown command")⟩ ::
          (runLoop ipc rest).2)) := by
  have hmem : msg.command ∉ ipc.handlers := by
    simpa using hnh
  have hstep : loopStep ipc msg =
      (ipc, [Effect.sendReply ⟨"error", msg.id, RespValue.val ("unknown command")⟩]) := by
    simp [loopStep, hnr, hmem, respond]
  refine ⟨hstep, ?_⟩
  intro rest
  simp [runLoop, hstep]

/-- Witness for the amended C3 at an envelope with id 0. -/
theorem loop_unknown_command_replies_witness :
    loopStep ⟨["known"], [(1, 1)], 1⟩ ⟨"bogus", 0, "p"⟩ =
      (⟨["known"], [(1, 1)], 1⟩,
        [Effect.sendReply ⟨"error", 0, RespValue.val ("unknown command")⟩]) ∧
    runLoop ⟨["known"], [(1, 1)], 1⟩ [StreamItem.msg ⟨"bogus", 0, "p"⟩] =
      (⟨["known"], [(1, 1)], 1⟩,
        [Effect.sendReply ⟨"error", 0, RespValue.val ("unknown command")⟩]) := by
  have h := loop_unknown_command_replies ⟨["known"], [(1, 1)], 1⟩ ⟨"bogus", 0, "p"⟩
    (by decide) (by decide)
  exact ⟨h.1, by simpa using h.2 []⟩

/-- Claim C4 counterexample: a handler that panics with a value that
does not implement the Go `error` interface (here the plain string
`boom`) produces a reply whose command is `response`, not `error` —
`respond` only switches to an `error` envelope for values satisfying the
`error`-interface type assertion. -/
theorem handler_panic_nonerror_value_reply :
    callHandler ⟨"somecmd", 5, ""⟩ (HandlerResult.panicked (RespValue.val ("boom"))) =
      [Effect.panicLogged ("somecmd"),
        Effect.sendReply ⟨"response", 5, RespValue.val ("boom")⟩] ∧
    ("response" : String) ≠ "error" := by
  exact ⟨rfl, by decide⟩

/-- Claim C4 (amended): when a dispatched handler panics with a non-nil
value, the panic is recovered at the dispatch-task boundary, logged, and
the recovered value is sent back as exactly one reply carrying the same
id as the inbound envelope — with command `error` and the value's
`Error()` string as data when the panic value implements the `error`
interface, and with command `response` carrying the value itself
otherwise; a nil-valued panic fails the `err != nil` recovery guard and
produces neither a log nor a reply.  The three conjuncts on the panic
value's shapes cover every possible recovered value.  The read loop is
unaffected: the dispatch branch leaves the processor state unchanged. -/
theorem handler_panic_recovered (msg : Message) (v : RespValue) :
    (∀ s, v = RespValue.err s →
      callHandler msg (HandlerResult.panicked v) =
        [Effect.panicLogged msg.command,
          Effect.sendReply ⟨"error", msg.id, RespValue.val s⟩]) ∧
    (∀ s, v = RespValue.val s →
      callHandler msg (HandlerResult.panicked v) =
        [Effect.panicLogged msg.command,
          Effect.sendReply ⟨"response", msg.id, RespValue.val s⟩]) ∧
    callHandler msg (HandlerResult.panicked RespValue.nil) = [] ∧
    (∀ ipc, isReply msg.command = false → ipc.handlers.contains msg.command = true →
      loopStep ipc msg = (ipc, [Effect.dispatch msg.command msg.id])) := by
  refine ⟨?_, ?_, rfl, ?_⟩
  · intro s hs
    subst hs
    simp [callHandler, respond]
  · intro s hs
    subst hs
    simp [callHandler, respond]
  · intro ipc hnr hh
    have hmem : msg.command ∈ ipc.handlers := by
      simpa using hh
    simp [loopStep, hnr, hmem]

/-- Witness for the amended C4: an error-valued panic is answered with
an `error` reply, a non-error panic (even at id 0) with a `response`
reply on the same id, a nil panic with nothing, and the dispatching loop
state is untouched. -/
theorem handler_panic_recovered_witness :
    callHandler ⟨"somecmd", 5, ""⟩ (HandlerResult.panicked (RespValue.err ("x"))) =
      [Effect.panicLogged ("somecmd"),
        Effect.sendReply ⟨"error", 5, RespValue.val ("x")⟩] ∧
    callHandler ⟨"somecmd", 0, ""⟩ (HandlerResult.panicked (RespValue.val ("y"))) =
      [Effect.panicLogged ("somecmd"),
        Effect.sendReply ⟨"response", 0, RespValue.val ("y")⟩] ∧
    callHandler ⟨"somecmd", 5, ""⟩ (HandlerResult.panicked RespValue.nil) = [] ∧
    loopStep ⟨["somecmd"], [], 0⟩ ⟨"somecmd", 5, ""⟩ =
      (⟨["somecmd"], [], 0⟩, [Effect.dispatch ("somecmd") 5]) := by
  have h1 := handler_panic_recovered ⟨"somecmd", 5, ""⟩ (RespValue.err ("x"))
  have h2 := handler_panic_recovered ⟨"somecmd", 0, ""⟩ (RespValue.val ("y"))
  exact ⟨h1.1 ("x") rfl, h2.2.1 ("y") rfl, h1.2.2.1,
    h1.2.2.2 ⟨["somecmd"], [], 0⟩ (by decide) (by decide)⟩

/-- Helper: the effects of one loop iteration do not depend on the
`reqID` counter, and the state evolves identically up to that counter. -/
theorem loopStep_reqID_irrelevant (ipc : Processor) (r : Int) (m : Message) :
    (loopStep { ipc with reqID := r } m).2 = (loopStep ipc m).2 ∧
    (loopStep { ipc with reqID := r } m).1 = { (loopStep ipc m).1 with reqID := r } := by
  by_cases hr : isReply m.command
  · cases hml : mapLookup ipc.waiters m.id with
    | none => simp [loopStep, hr, hml]
    | some w => simp [loopStep, hr, hml]
  · by_cases hh : m.command ∈ ipc.handlers
    · simp [loopStep, hr, hh]
    · simp [loopStep, hr, hh]

/-- Helper: the effects of the whole read loop do not depend on the
`reqID` counter. -/
theorem runLoop_reqID_irrelevant (items : List StreamItem) (ipc : Processor) (r : Int) :
    (runLoop { ipc with reqID := r } items).2 = (runLoop ipc items).2 := by
  induction items generalizing ipc with
  | nil => rfl
  | cons it rest ih =>
    cases it with
    | eof => rfl
    | readError => rfl
    | msg m =>
      have h := loopStep_reqID_irrelevant ipc r m
      simp [runLoop, h.1, h.2, ih]

/-- Claim C8: when writing the outgoing envelope of a request fails, the
pending waiter entry allocated for that request is removed again, the
error is returned synchronously to the caller, every other pending entry
is unchanged (the table returns to exactly its previous value, and the
handler table is untouched), and the read loop is unaffected: it
produces the same effects on any input stream as before the failed
request.  The freshness hypothesis says the allocated id is not already
pending, which holds in every run until the 32-bit counter laps a
still-pending id. -/
theorem request_send_failure_cleanup (ipc : Processor)
    (hfresh : mapLookup ipc.waiters (wrap32 (ipc.reqID + 1)) = none) :
    (Request ipc false).failed = true ∧
    (Request ipc false).state.waiters = ipc.waiters ∧
    (Request ipc false).state.handlers = ipc.handlers ∧
    (∀ items, (runLoop (Request ipc false).state items).2 = (runLoop ipc items).2) := by
  have hstate : (Request ipc false).state = { ipc with reqID := wrap32 (ipc.reqID + 1) } := by
    simp [Request, mapErase_mapInsert, mapErase_eq_self _ _ hfresh]
  refine ⟨rfl, ?_, ?_, ?_⟩
  · rw [hstate]
  · rw [hstate]
  · intro items
    rw [hstate]
    exact runLoop_reqID_irrelevant items ipc _

/-- Witness for C8: a failed send leaves a one-entry table intact and
the loop still delivers to the surviving waiter. -/
theorem request_send_failure_cleanup_witness :
    (Request ⟨["h"], [(3, 3)], 3⟩ false).failed = true ∧
    (Request ⟨["h"], [(3, 3)], 3⟩ false).state.waiters = [(3, 3)] ∧
    (runLoop (Request ⟨["h"], [(3, 3)], 3⟩ false).state
        [StreamItem.msg ⟨"response", 3, "d"⟩]).2 =
      (runLoop ⟨["h"], [(3, 3)], 3⟩ [StreamItem.msg ⟨"response", 3, "d"⟩]).2 := by
  have h := request_send_failure_cleanup ⟨["h"], [(3, 3)], 3⟩ (by decide)
  exact ⟨h.1, h.2.1, h.2.2.2 [StreamItem.msg ⟨"response", 3, "d"⟩]⟩

/-- Claim C9: when the deadline-bounded wait returns on the caller's
context ending after the request was sent successfully, the pending
entry for the request stays in the correlation table — the cancellation
path performs no cleanup — so a reply arriving later for that id is
still accepted and delivered into the abandoned one-slot channel. -/
theorem requestwait_ctx_cancel_leaves_entry (ipc : Processor) :
    (RequestWait ipc true WaitOutcome.ctxDone).2 = RWResult.ctxError ∧
    mapLookup (RequestWait ipc true WaitOutcome.ctxDone).1.waiters
        (wrap32 (ipc.reqID + 1)) = some (wrap32 (ipc.reqID + 1)) ∧
    (∀ m, isReply m.command = true → m.id = wrap32 (ipc.reqID + 1) →
      (loopStep (RequestWait ipc true WaitOutcome.ctxDone).1 m).2 =
        [Effect.deliver (wrap32 (ipc.reqID + 1)) m]) := by
  have hstate : (RequestWait ipc true WaitOutcome.ctxDone).1 =
      { ipc with reqID := wrap32 (ipc.reqID + 1),
                 waiters := mapInsert ipc.waiters (wrap32 (ipc.reqID + 1))
                   (wrap32 (ipc.reqID + 1)) } := by
    simp [RequestWait, Request]
  refine ⟨by simp [RequestWait, Request], ?_, ?_⟩
  · rw [hstate]
    exact mapLookup_mapInsert_self _ _ _
  · intro m hr hid
    rw [hstate]
    simp [loopStep, hr, hid, mapLookup_mapInsert_self]

/-- Witness for C9 at an empty initial table: the abandoned entry for
request id 1 survives the context cancellation and a late reply is
delivered to its channel. -/
theorem requestwait_ctx_cancel_leaves_entry_witness :
    (RequestWait ⟨[], [], 0⟩ true WaitOutcome.ctxDone).2 = RWResult.ctxError ∧
    mapLookup (RequestWait ⟨[], [], 0⟩ true WaitOutcome.ctxDone).1.waiters 1 = some 1 ∧
    (loopStep (RequestWait ⟨[], [], 0⟩ true WaitOutcome.ctxDone).1 ⟨"response", 1, "z"⟩).2 =
      [Effect.deliver 1 ⟨"response", 1, "z"⟩] := by
  have h := requestwait_ctx_cancel_leaves_entry ⟨[], [], 0⟩
  have hw : wrap32 (0 + 1) = 1 := by decide
  refine ⟨h.1, ?_, ?_⟩
  · have := h.2.1
    rwa [show ((⟨[], [], 0⟩ : Processor).reqID + 1) = 0 + 1 from rfl, hw] at this
  · have := h.2.2 ⟨"response", 1, "z"⟩ (by decide)
      (by rw [show ((⟨[], [], 0⟩ : Processor).reqID + 1) = 0 + 1 from rfl, hw])
    rwa [show ((⟨[], [], 0⟩ : Processor).reqID + 1) = 0 + 1 from rfl, hw] at this

/-- Claim C6 (code bug): `Stop` on a child that was started and is still
running takes the early no-op path.  `exec.Cmd.ProcessState` stays the Go
`nil` until `Wait` completes, and nothing in the connector calls `Wait`
before `Stop`, so the guard `ProcessState == nil` is true for a live
child (`some none` here): `Stop` only logs the `not running` message —
contradicting both that message and the claimed SIGTERM, forced-kill
timer and wait, which are unreachable for a running child. -/
theorem macstop_running_child_is_noop :
    MacStop (some none) = [StopEffect.logNotRunning] ∧
    stopReturnsEarly (some none) = true ∧
    MacStop (some none) ≠ [StopEffect.notifyStopPinger, StopEffect.sigterm,
      StopEffect.armForcedKillTimer 3, StopEffect.waitForExit] := by
  refine ⟨rfl, rfl, ?_⟩
  decide

/-- Helper: the first select of the ping loop times out when neither the
reply nor the stop signal arrives within the ping interval. -/
theorem pingSelect_timeout (interval : Nat) (stopT respT : Option Nat)
    (hresp : ∀ t, respT = some t → interval < t)
    (hstop : ∀ t, stopT = some t → interval < t) :
    pingSelect interval stopT respT = (PingEvent.timeoutFired, interval) := by
  cases stopT with
  | none =>
    cases respT with
    | none => rfl
    | some r =>
      have hr := hresp r rfl
      simp only [pingSelect]
      rw [if_neg (by omega)]
  | some s =>
    have hs := hstop s rfl
    cases respT with
    | none =>
      simp only [pingSelect]
      rw [if_neg (by omega)]
    | some r =>
      have hr := hresp r rfl
      simp only [pingSelect]
      rw [if_neg (by omega), if_neg (by omega)]

/-- Helper: the first select of the ping loop fires on the stop signal
when it arrives no later than the timeout and the reply. -/
theorem pingSelect_stop_first (interval s : Nat) (respT : Option Nat)
    (hsi : s ≤ interval) (hresp : ∀ t, respT = some t → s ≤ t) :
    pingSelect interval (some s) respT = (PingEvent.stopSignal, s) := by
  cases respT with
  | none =>
    simp only [pingSelect]
    rw [if_pos hsi]
  | some r =>
    simp only [pingSelect]
    rw [if_pos ⟨hsi, hresp r rfl⟩]

/-- Helper: the first select of the ping loop fires on the reply when it
arrives within the interval and strictly before any stop signal. -/
theorem pingSelect_resp_first (interval r : Nat) (stopT : Option Nat)
    (hri : r ≤ interval) (hstop : ∀ s, stopT = some s → r < s) :
    pingSelect interval stopT (some r) = (PingEvent.respArrived, r) := by
  cases stopT with
  | none =>
    simp only [pingSelect]
    rw [if_pos hri]
  | some s =>
    have hs := hstop s rfl
    simp only [pingSelect]
    rw [if_neg (by omega), if_pos hri]

/-- Claim C7: in an iteration of the subprocess liveness ping loop in
which no reply arrives within the ping interval (and no stop signal
preempts it), the fatal path fires — the process exits with code 255 —
at exactly the interval boundary, i.e. within the interval plus any
positive epsilon; and whenever the stop signal arrives strictly first,
the loop returns cleanly without taking the fatal path. -/
theorem pingloop_timeout_fatal_stop_clean (interval : Nat) (stopT respT : Option Nat)
    (resp : Message) (sdr : Bool) :
    ((∀ t, respT = some t → interval < t) → (∀ t, stopT = some t → interval < t) →
      pingIteration true interval stopT respT resp sdr = PingOutcome.exitCode 255 ∧
      (pingSelect interval stopT respT).2 = interval) ∧
    (∀ s, stopT = some s → s < interval → (∀ t, respT = some t → s < t) →
      pingIteration true interval stopT respT resp sdr = PingOutcome.cleanReturn) := by
  constructor
  · intro hresp hstop
    have hsel := pingSelect_timeout interval stopT respT hresp hstop
    constructor
    · simp [pingIteration, hsel]
    · rw [hsel]
  · intro s hs hsi hresp
    subst hs
    have hsel := pingSelect_stop_first interval s respT (Nat.le_of_lt hsi)
      (fun t ht => Nat.le_of_lt (hresp t ht))
    simp [pingIteration, hsel]

/-- Witness for C7: with a 10-unit interval, a never-answering peer is
fatal with code 255 at time 10, and a stop signal at time 3 returns the
loop cleanly. -/
theorem pingloop_timeout_fatal_stop_clean_witness :
    (pingIteration true 10 none none ⟨"response", 1, ""⟩ false = PingOutcome.exitCode 255 ∧
      (pingSelect 10 none none).2 = 10) ∧
    pingIteration true 10 (some 3) none ⟨"response", 1, ""⟩ false = PingOutcome.cleanReturn := by
  constructor
  · exact (pingloop_timeout_fatal_stop_clean 10 none none ⟨"response", 1, ""⟩ false).1
      (fun t ht => by cases ht) (fun t ht => by cases ht)
  · exact (pingloop_timeout_fatal_stop_clean 10 (some 3) none ⟨"response", 1, ""⟩ false).2
      3 rfl (by omega) (fun t ht => by cases ht)

/-- Claim C10: a reply that arrives within the ping interval but carries
command `error` is also fatal, with exit code 253 — distinct from the
no-reply timeout path (255) and from the send-failure path (254, shown
here on the same inputs with the send failing). -/
theorem pingloop_error_pong_fatal (interval r : Nat) (stopT : Option Nat)
    (resp : Message) (sdr : Bool) :
    resp.command = "error" → r < interval → (∀ s, stopT = some s → r < s) →
    (pingIteration true interval stopT (some r) resp sdr = PingOutcome.exitCode 253 ∧
      pingIteration false interval stopT (some r) resp sdr = PingOutcome.exitCode 254 ∧
      (253 : Nat) ≠ 255 ∧ (253 : Nat) ≠ 254) := by
  intro hc hr hstop
  have hsel := pingSelect_resp_first interval r stopT (Nat.le_of_lt hr) hstop
  refine ⟨?_, rfl, by decide, by decide⟩
  simp [pingIteration, hsel, hc]

/-- Witness for C10: an error pong at time 2 of a 10-unit interval exits
with 253, and a failed send exits with 254. -/
theorem pingloop_error_pong_fatal_witness :
    pingIteration true 10 none (some 2) ⟨"error", 1, "e"⟩ false = PingOutcome.exitCode 253 ∧
    pingIteration false 10 none (some 2) ⟨"error", 1, "e"⟩ false = PingOutcome.exitCode 254 := by
  have h := pingloop_error_pong_fatal 10 2 none ⟨"error", 1, "e"⟩ false rfl (by omega)
    (fun s hs => by cases hs)
  exact ⟨h.1, h.2.1⟩

/-- Claim C2 counterexample: in a run where every session is short (1
second, well under the reset window), the successive waits are
4, 8, 16, 32, 64, 120, 120, 120 seconds — the first wait is 4 s, not the
claimed default of 2 s, because the loop doubles the stored backoff
before sleeping on it. -/
theorem backoff_first_wait_not_default :
    wsWaits (wsInit 0) (List.replicate 8 nsPerSecond) =
      [4, 8, 16, 32, 64, 120, 120, 120].map (fun s => s * nsPerSecond) ∧
    nsPerSecond < reconnectBackoffReset ∧
    (wsWaits (wsInit 0) (List.replicate 8 nsPerSecond)).head? = some (4 * nsPerSecond) ∧
    4 * nsPerSecond ≠ defaultReconnectBackoff := by
  refine ⟨by rfl, by decide, by rfl, by decide⟩

/-- Helper for the amended C2: along a run of short sessions the stored
backoff is always a doubled-and-capped power of two, and each wait is
the value obtained after doubling. -/
theorem wsWaits_consecutive (gs : List Nat) : ∀ (k : Nat) (st : WSState),
    (∀ g ∈ gs, g ≤ 180 * nsPerSecond) →
    st.clock ≤ st.lastDisconnect + maxReconnectBackoff →
    st.reconnectBackoff = min (2 ^ (k + 1) * nsPerSecond) maxReconnectBackoff →
    wsWaits st gs = (List.range gs.length).map
      (fun i => min (2 ^ (k + i + 2) * nsPerSecond) maxReconnectBackoff) := by
  induction gs with
  | nil =>
    intro k st _ _ _
    rfl
  | cons g gs ih =>
    intro k st hshort hclock hb
    have hg : g ≤ 180 * nsPerSecond := hshort g (List.mem_cons_self g gs)
    have hRM : reconnectBackoffReset = maxReconnectBackoff + 180 * nsPerSecond := by
      simp only [reconnectBackoffReset, maxReconnectBackoff]
      ring
    have hnoreset : ¬ (st.lastDisconnect + reconnectBackoffReset < st.clock + g) := by
      omega
    have ha : 2 ^ (k + 2) * nsPerSecond = 2 * (2 ^ (k + 1) * nsPerSecond) := by
      rw [pow_succ]
      ring
    have hw : (wsStep st g).2 = min (2 ^ (k + 2) * nsPerSecond) maxReconnectBackoff := by
      simp only [wsStep, wsUpdateBackoff, if_neg hnoreset, hb, ha]
      generalize 2 ^ (k + 1) * nsPerSecond = A
      omega
    have hb2 : (wsStep st g).1.reconnectBackoff =
        min (2 ^ (k + 1 + 1) * nsPerSecond) maxReconnectBackoff := hw
    have hclock2 : (wsStep st g).1.clock ≤
        (wsStep st g).1.lastDisconnect + maxReconnectBackoff := by
      show st.clock + g + (wsStep st g).2 ≤ st.clock + g + maxReconnectBackoff
      have hle : (wsStep st g).2 ≤ maxReconnectBackoff := by
        rw [hw]
        exact min_le_right _ _
      omega
    have hrec := ih (k + 1) (wsStep st g).1
      (fun g2 hg2 => hshort g2 (List.mem_cons_of_mem g hg2)) hclock2 hb2
    simp only [wsWaits, hw, hrec, List.length_cons, List.range_succ_eq_map,
      List.map_cons, List.map_map]
    have h0 : k + 0 + 2 = k + 2 := by omega
    rw [h0]
    have hfun : ((fun i => min (2 ^ (k + i + 2) * nsPerSecond) maxReconnectBackoff) ∘ Nat.succ)
        = fun i => min (2 ^ (k + 1 + i + 2) * nsPerSecond) maxReconnectBackoff := by
      funext i
      simp only [Function.comp_apply, Nat.succ_eq_add_one]
      have he : k + (i + 1) + 2 = k + 1 + i + 2 := by omega
      rw [he]
    rw [hfun]

/-- Claim C2 (amended): for every run of the reconnect loop in which the
disconnects are consecutive (each session short of outlasting the reset
window together with the preceding wait; 180 s is such a bound), the
successive wait durations are 4, 8, 16, 32, 64, 120, 120, … seconds:
the stored backoff starts at the default 2 s, but each disconnect first
doubles it — capping at 120 s — and only then sleeps, so the default
value itself is never used as a wait in such a run. -/
theorem backoff_consecutive_waits (t0 : Nat) (gs : List Nat)
    (hshort : ∀ g ∈ gs, g ≤ 180 * nsPerSecond) :
    wsWaits (wsInit t0) gs = (List.range gs.length).map
      (fun i => min (2 ^ (i + 2) * nsPerSecond) maxReconnectBackoff) := by
  have hb : (wsInit t0).reconnectBackoff =
      min (2 ^ (0 + 1) * nsPerSecond) maxReconnectBackoff := by
    show defaultReconnectBackoff = _
    decide
  have h := wsWaits_consecutive gs 0 (wsInit t0) hshort (by simp [wsInit]) hb
  simpa using h

/-- Witness for the amended C2 on eight consecutive 1-second sessions. -/
theorem backoff_consecutive_waits_witness :
    wsWaits (wsInit 0) (List.replicate 8 nsPerSecond) =
      (List.range 8).map
        (fun i => min (2 ^ (i + 2) * nsPerSecond) maxReconnectBackoff) := by
  have h := backoff_consecutive_waits 0 (List.replicate 8 nsPerSecond) (by decide)
  simpa using h

end IMBridge
